import Mathlib

/-!
Verification development for sm2pspp (src/src/sm2pspp.c), a single-pass
post-processor that rewrites a PrusaSlicer G-code file into a Snapmaker 2.0
compatible one.  The C program is shallowly embedded here:

* the input file is a `List Char` (one `Char` per byte of the ASCII input);
* C `float` values are idealized as exact rationals.  To keep every
  definition kernel-computable they are represented by the type `MQ` of
  unreduced fractions (integer numerator over positive natural denominator);
  `MQ.toRat` interprets such a value in `ℚ`.  A C `NAN` is represented as
  `none` in `Option MQ` (the program only ever tests floats with
  `IS_SET(v)`, i.e. `v == v`, which is false exactly for NaN, and with
  ordinary comparisons, which are false when an operand is NaN);
* the six bounding-box floats, initialized to the sentinels
  `{+INF,+INF,+INF,-INF,-INF,-INF}` and always updated min/max pairwise under
  the same guard, are represented per axis as `Option (MQ × MQ)` where `none`
  stands for the sentinel pair `(+INF, -INF)` and `some (mn, mx)` for a pair
  of finite values;
* `size_t` and `unsigned int` arithmetic wraps, written explicitly as
  `% 2 ^ 64` and `% 2 ^ 32`;
* a `tPToken` is a non-owning view `(start offset, length)` into the input
  buffer; a `NULL` start pointer is `none`;
* file I/O is assumed to succeed (fatal open/read/write errors are outside
  the scope of the claims checked here); the rewritten file content is
  returned as a value instead of being written to disk.
-/

/-- An exact rational as an unreduced fraction.  All values built by the
embedding have a positive denominator.  This mirrors the idealized value of
the C `float` computations of sm2pspp, which only add, subtract, compare,
scale and divide by powers of ten. -/
structure MQ where
  num : Int
  den : Nat
deriving DecidableEq, Repr

/-- Interpretation of an `MQ` value as a rational number. -/
def MQ.toRat (q : MQ) : ℚ :=
  (q.num : ℚ) / (q.den : ℚ)

/-- Comparison `a < b` of two fractions with positive denominators, by
cross-multiplication. -/
def MQ.Lt (a b : MQ) : Prop :=
  a.num * (b.den : Int) < b.num * (a.den : Int)

/-- Comparison `a ≤ b` of two fractions with positive denominators, by
cross-multiplication. -/
def MQ.Le (a b : MQ) : Prop :=
  a.num * (b.den : Int) ≤ b.num * (a.den : Int)

instance (a b : MQ) : Decidable (MQ.Lt a b) := by unfold MQ.Lt; infer_instance

instance (a b : MQ) : Decidable (MQ.Le a b) := by unfold MQ.Le; infer_instance

/-- Addition of two fractions (C float `+`, idealized exactly). -/
def MQ.add (a b : MQ) : MQ :=
  ⟨a.num * b.den + b.num * a.den, a.den * b.den⟩

/-- Subtraction of two fractions (C float `-`, idealized exactly). -/
def MQ.sub (a b : MQ) : MQ :=
  ⟨a.num * b.den - b.num * a.den, a.den * b.den⟩

/-- The fraction `n / 1`. -/
def MQ.ofNat (n : Nat) : MQ :=
  ⟨n, 1⟩

/-- Zero as a fraction. -/
def MQ.zero : MQ :=
  ⟨0, 1⟩

/-- Positivity `0 < a` (used for the `paramE > 0.0f` extrusion tests). -/
def MQ.pos (a : MQ) : Prop :=
  MQ.Lt MQ.zero a

instance (a : MQ) : Decidable (MQ.pos a) := by unfold MQ.pos; infer_instance

/-- A `tPToken`: non-owning view into the input buffer.  `start = none`
models a `NULL` start pointer. -/
structure PToken where
  start : Option Nat := none
  length : Nat := 0
deriving DecidableEq, Repr

/-- The characters a token views, `aToken.start[0 .. aToken.length)`. -/
def tokenChars (input : List Char) (t : PToken) : List Char :=
  match t.start with
  | none => []
  | some s => (input.drop s).take t.length

/-- Modelled from the spec: `p_cmpToken` (defined in the sm2pspp header,
which is not under src/) compares a token with a C string, case-sensitively
and exactly, strcmp-style; this is its equality outcome (result `== 0`). -/
def tokEq (input : List Char) (t : PToken) (s : String) : Bool :=
  tokenChars input t == s.toList

/-- Helper `p_cmpTokenStart` (sm2pspp.c lines 99-105): truncates the token to the
length of the compared string, then compares exactly; equality outcome. -/
def tokEqStart (input : List Char) (t : PToken) (s : String) : Bool :=
  (tokenChars input t).take s.toList.length == s.toList

/-- One step of the `p_dtms` loop (sm2pspp.c lines 118-144) on the state
`(res, val)`; both are C `size_t`, so arithmetic is mod `2 ^ 64`. -/
def p_dtmsStep (st : Nat × Nat) (c : Char) : Nat × Nat :=
  if c.isDigit then (st.1, (st.2 * 10 + (c.toNat - 48)) % 2 ^ 64)
  else if c = 'd' then ((st.1 + st.2 * 86400) % 2 ^ 64, 0)
  else if c = 'h' then ((st.1 + st.2 * 3600) % 2 ^ 64, 0)
  else if c = 'm' then ((st.1 + st.2 * 60) % 2 ^ 64, 0)
  else if c = 's' then ((st.1 + st.2) % 2 ^ 64, 0)
  else st

/-- Parser `p_dtms` (sm2pspp.c lines 114-146): parse a dhms duration token into
seconds.  An empty or NULL token yields 0, which coincides with folding over
the empty character list. -/
def p_dtms (s : List Char) : Nat :=
  (s.foldl p_dtmsStep (0, 0)).1

/-- Core loop of `p_uint` (sm2pspp.c lines 155-171): accumulate leading
digits into a C `unsigned int` (mod `2 ^ 32`), stop at the first
non-digit. -/
def p_uintCore : List Char → Nat → Nat
  | [], v => v
  | c :: r, v =>
    if c.isDigit then p_uintCore r ((v * 10 + (c.toNat - 48)) % 2 ^ 32) else v

/-- Parser `p_uint`: token to unsigned integer; empty or NULL token yields 0. -/
def p_uint (s : List Char) : Nat :=
  p_uintCore s 0

/-- Core loop of `p_float` (sm2pspp.c lines 192-210), after the optional
sign: accumulates the integer part `val` and fraction digits `frac`
(both C `size_t`, mod `2 ^ 64`) and the fraction divisor `fracDiv`
(a float holding the power of ten `10 ^ #fraction digits`, kept here as a
natural number); any `.` switches to fraction mode; the first other
character stops the loop (`goto endOfNumber`). -/
def p_floatCore : List Char → Nat → Nat → Nat → Bool → Nat × Nat × Nat
  | [], val, frac, fracDiv, _ => (val, frac, fracDiv)
  | c :: r, val, frac, fracDiv, isFrac =>
    if c.isDigit then
      if isFrac then
        p_floatCore r val ((frac * 10 + (c.toNat - 48)) % 2 ^ 64) (fracDiv * 10) isFrac
      else
        p_floatCore r ((val * 10 + (c.toNat - 48)) % 2 ^ 64) frac fracDiv isFrac
    else if c = '.' then p_floatCore r val frac fracDiv true
    else (val, frac, fracDiv)

/-- Parser `p_float` (sm2pspp.c lines 180-213): simplified float parser; optional
single leading minus sign at position 0 only; the C result
`sign * (val + frac / fracDiv)` is the exact fraction
`sign * (val * fracDiv + frac) / fracDiv`. -/
def p_float (s : List Char) : MQ :=
  match s with
  | [] => MQ.zero
  | c :: r =>
    let (sign, rest) : Int × List Char := if c = '-' then (-1, r) else (1, c :: r)
    let (val, frac, fracDiv) := p_floatCore rest 0 0 1 false
    ⟨sign * (val * fracDiv + frac), fracDiv⟩

/-- The lexer states of `processFile` (sm2pspp.c lines 276-286).
`thumbnailTail` exists only when `FEATURE_REMOVE_ORIG_THUMBNAIL` is
compiled in; the model carries that compile-time flag as a runtime
parameter `rot`. -/
inductive TState
  | lineStart
  | findLineStart
  | gcode
  | comment
  | parameterValue
  | thumbnail
  | thumbnailTail
deriving DecidableEq, Repr

/-- The parameter currently scanned inside a G-code line
(sm2pspp.c lines 300-307). -/
inductive TParam
  | pG
  | pX
  | pY
  | pZ
  | pE
  | pUnknown
deriving DecidableEq, Repr

/-- Identifier of a metadata capture slot; stands for the address of the
corresponding local `tPToken` variable, as stored in the C pointer
`valueToken`. -/
inductive SlotId
  | filamentUsed
  | firstLayerHeight
  | layerHeight
  | estTime
  | nozzleTemp0
  | nozzleTemp1
  | plateTemp
  | printSpeed
deriving DecidableEq, Repr

/-- The missing-metadata warnings of `processFile`
(sm2pspp.c lines 37-43 and 677-683). -/
inductive Msg
  | noFilamentUsed
  | noLayerHeight
  | noEstTime
  | noNozzleTemp
  | noPlateTemp
  | noPrintSpeed
  | noThumbnail
deriving DecidableEq, Repr

/-- The local state of the `processFile` parse loop (sm2pspp.c
lines 237-307).  `everExt` is a ghost field, not present in the C code: it
records whether any linear move with positive E value was ever dispatched;
it is used only to state claims about inputs that do or do not contain an
extruding move. -/
structure St where
  prevExt : Bool
  isAbsPos : Bool
  hasLayerChange : Bool
  everExt : Bool
  code : Nat
  paramX : Option MQ
  paramY : Option MQ
  paramZ : Option MQ
  paramE : Option MQ
  x : Option MQ
  y : Option MQ
  z : Option MQ
  bbX : Option (MQ × MQ)
  bbY : Option (MQ × MQ)
  bbZ : Option (MQ × MQ)
  lineNr : Nat
  origThumbnailLines : Nat
  origThumbnail : PToken
  filamentUsed : PToken
  firstLayerHeight : PToken
  layerHeight : PToken
  estTime : PToken
  nozzleTemp0 : PToken
  nozzleTemp1 : PToken
  plateTemp : PToken
  printSpeed : PToken
  thumbnail : PToken
  aToken : PToken
  valueToken : Option SlotId
  lineStartIdx : Nat
  state : TState
  param : TParam

/-- Macro `GCODE('G', num)` (sm2pspp.c line 233): `'G' = 71` shifted left by 16,
or-ed with the (already mod `2 ^ 32`) command number. -/
def GCODE (num : Nat) : Nat :=
  Nat.lor (71 <<< 16) num

/-- The initial values of the `processFile` locals (sm2pspp.c
lines 237-307); `code` starts as `(unsigned int) -1`. -/
def initSt : St where
  prevExt := false
  isAbsPos := true
  hasLayerChange := false
  everExt := false
  code := 2 ^ 32 - 1
  paramX := none
  paramY := none
  paramZ := none
  paramE := none
  x := none
  y := none
  z := none
  bbX := none
  bbY := none
  bbZ := none
  lineNr := 1
  origThumbnailLines := 0
  origThumbnail := {}
  filamentUsed := {}
  firstLayerHeight := {}
  layerHeight := {}
  estTime := {}
  nozzleTemp0 := {}
  nozzleTemp1 := {}
  plateTemp := {}
  printSpeed := {}
  thumbnail := {}
  aToken := {}
  valueToken := none
  lineStartIdx := 0
  state := TState.lineStart
  param := TParam.pUnknown

/-- Read the slot a `valueToken` pointer designates. -/
def getSlot (st : St) : SlotId → PToken
  | SlotId.filamentUsed => st.filamentUsed
  | SlotId.firstLayerHeight => st.firstLayerHeight
  | SlotId.layerHeight => st.layerHeight
  | SlotId.estTime => st.estTime
  | SlotId.nozzleTemp0 => st.nozzleTemp0
  | SlotId.nozzleTemp1 => st.nozzleTemp1
  | SlotId.plateTemp => st.plateTemp
  | SlotId.printSpeed => st.printSpeed

/-- Write the slot a `valueToken` pointer designates. -/
def setSlot (st : St) (sl : SlotId) (t : PToken) : St :=
  match sl with
  | SlotId.filamentUsed => { st with filamentUsed := t }
  | SlotId.firstLayerHeight => { st with firstLayerHeight := t }
  | SlotId.layerHeight => { st with layerHeight := t }
  | SlotId.estTime => { st with estTime := t }
  | SlotId.nozzleTemp0 => { st with nozzleTemp0 := t }
  | SlotId.nozzleTemp1 => { st with nozzleTemp1 := t }
  | SlotId.plateTemp => { st with plateTemp := t }
  | SlotId.printSpeed => { st with printSpeed := t }

/-- C `isspace` on the ASCII bytes relevant here. -/
def cIsSpace (c : Char) : Bool :=
  c = ' ' ∨ c = '\t' ∨ c = '\n' ∨ c = '\x0b' ∨ c = '\x0c' ∨ c = '\r'

/-- Fold one coordinate into one axis of the bounding box
(`if (min > v) min = v; if (max < v) max = v;` with the sentinel pair
`(+INF, -INF)` represented as `none`). -/
def bbFold : Option (MQ × MQ) → MQ → Option (MQ × MQ)
  | none, v => some (v, v)
  | some (mn, mx), v =>
    some ((if MQ.Lt v mn then v else mn), (if MQ.Lt mx v then v else mx))

/-- Fold an optional coordinate (`IS_SET` guard: NaN coordinates are
skipped, which matches the C comparisons being false on NaN). -/
def bbFoldOpt (bb : Option (MQ × MQ)) : Option MQ → Option (MQ × MQ)
  | some v => bbFold bb v
  | none => bb

/-- The `IS_SET(paramE) && paramE > 0.0f` extrusion test. -/
def extruding (st : St) : Bool :=
  match st.paramE with
  | some e => MQ.pos e
  | none => false

/-- Position update for one axis (sm2pspp.c lines 453-473): an absolute
move replaces the coordinate, a relative move adds to it (NaN + v stays
NaN, i.e. `none`); an absent parameter leaves it unchanged. -/
def updAxis (abs : Bool) (cur : Option MQ) : Option MQ → Option MQ
  | some v => if abs then some v else cur.map (fun c => MQ.add c v)
  | none => cur

/-- The G-code dispatch switch (sm2pspp.c lines 422-513), run when a
`G` command line ends: linear moves `G0`/`G1` update the bounding box and
the current position, `G90`/`G91` set absolute/relative positioning, all
other codes do nothing.  The parameter floats `paramX..paramE` are not
modified anywhere in the dispatch, so the second extrusion test and the
`IS_SET(param_)` guards read them from the entry state `st`. -/
def applyGcode (st : St) : St :=
  if st.code = GCODE 0 ∨ st.code = GCODE 1 then
    let st1 :=
      if extruding st ∧ st.prevExt = false then
        { st with
          bbX := bbFoldOpt st.bbX st.x
          bbY := bbFoldOpt st.bbY st.y
          bbZ := bbFoldOpt st.bbZ st.z }
      else st
    let st2 :=
      { st1 with
        x := updAxis st1.isAbsPos st1.x st1.paramX
        y := updAxis st1.isAbsPos st1.y st1.paramY
        z := updAxis st1.isAbsPos st1.z st1.paramZ }
    if extruding st then
      { st2 with
        bbX := if st.paramX.isSome then bbFoldOpt st2.bbX st2.x else st2.bbX
        bbY := if st.paramY.isSome then bbFoldOpt st2.bbY st2.y else st2.bbY
        bbZ := if st.paramZ.isSome then bbFoldOpt st2.bbZ st2.z else st2.bbZ
        prevExt := true
        everExt := true }
    else { st2 with prevExt := false }
  else if st.code = GCODE 90 then { st with isAbsPos := true }
  else if st.code = GCODE 91 then { st with isAbsPos := false }
  else st

/-- Result type of one character step: the successor state paired with an
exit flag.  The flag is true when the parse loop is left with overall
success (`goto onSuccess`, taken when the already-post-processed marker is
recognized); in that case the state is returned unchanged, since the C code
jumps out before modifying anything else. -/
abbrev StepRes := St × Bool

/-- State `ST_LINE_START` (sm2pspp.c lines 351-371). -/
def stepLineStart (st : St) (i : Nat) (ch : Char) : St :=
  if ch = ';' then { st with aToken := {}, state := TState.comment }
  else if ch = 'G' then
    { st with
      param := TParam.pG
      paramX := none
      paramY := none
      paramZ := none
      paramE := none
      aToken := ⟨some (i + 1), 0⟩
      state := TState.gcode }
  else if cIsSpace ch = false then { st with state := TState.findLineStart }
  else st

/-- State `ST_FIND_LINE_START` (sm2pspp.c lines 372-377). -/
def stepFindLineStart (st : St) (ch : Char) : St :=
  if ch = '\n' then { st with state := TState.lineStart } else st

/-- Close the currently scanned parameter token and store its parsed value
(sm2pspp.c lines 400-418). -/
def dispatchParam (input : List Char) (st : St) : St :=
  match st.param with
  | TParam.pG => { st with code := GCODE (p_uint (tokenChars input st.aToken)) }
  | TParam.pX => { st with paramX := some (p_float (tokenChars input st.aToken)) }
  | TParam.pY => { st with paramY := some (p_float (tokenChars input st.aToken)) }
  | TParam.pZ => { st with paramZ := some (p_float (tokenChars input st.aToken)) }
  | TParam.pE => { st with paramE := some (p_float (tokenChars input st.aToken)) }
  | TParam.pUnknown => st

/-- State `ST_GCODE` (sm2pspp.c lines 378-524). -/
def stepGcode (input : List Char) (st : St) (i : Nat) (ch : Char) : St :=
  if ch.isDigit ∨ (st.param ≠ TParam.pG ∧ (ch = '.' ∨ (st.aToken.length = 0 ∧ ch = '-'))) then
    { st with aToken := { st.aToken with length := st.aToken.length + 1 } }
  else if ch = 'X' then { st with param := TParam.pX, aToken := ⟨some (i + 1), 0⟩ }
  else if ch = 'Y' then { st with param := TParam.pY, aToken := ⟨some (i + 1), 0⟩ }
  else if ch = 'Z' then { st with param := TParam.pZ, aToken := ⟨some (i + 1), 0⟩ }
  else if ch = 'E' then { st with param := TParam.pE, aToken := ⟨some (i + 1), 0⟩ }
  else
    let st1 := { dispatchParam input st with param := TParam.pUnknown }
    if ch = '\n' ∨ ch = ';' then
      let st2 := applyGcode st1
      if ch = '\n' then { st2 with state := TState.lineStart }
      else { st2 with aToken := {}, state := TState.comment }
    else st1

/-- The tail of the `=` branch of `ST_COMMENT` (sm2pspp.c lines 581-590):
with `vt` the value of the C pointer `valueToken` after the key-matching
chain, reset the scratch token and, when a slot is designated, activate
value capture if the slot is still unfilled, else discard the duplicate. -/
def commentKeyDispatch (st : St) (vt : Option SlotId) : St :=
  let st2 := { st with valueToken := vt }
  match vt with
  | none => st2
  | some sl =>
    if (getSlot st2 sl).start = none then
      { st2 with aToken := {}, state := TState.parameterValue }
    else
      { st2 with aToken := {}, valueToken := none, state := TState.findLineStart }

/-- State `ST_COMMENT` (sm2pspp.c lines 525-595).  Recognizing the
already-post-processed marker word followed by a space exits the whole
parse with success (exit flag true, state unchanged). -/
def stepComment (rot : Bool) (input : List Char) (st : St) (i : Nat) (ch : Char) : StepRes :=
  if ch = '\n' then
    (if tokEq input st.aToken "LAYER_CHANGE" ∧ st.hasLayerChange = false then
      { st with state := TState.lineStart, hasLayerChange := true,
                bbX := none, bbY := none, bbZ := none }
     else { st with state := TState.lineStart }, false)
  else if st.aToken.start = none then
    ((if cIsSpace ch = false then { st with aToken := ⟨some i, 1⟩ } else st), false)
  else if ch = ' ' ∧ st.aToken.length > 0 then
    if tokEq input st.aToken "post-processed by sm2pspp" then (st, true)
    else if tokEq input st.aToken "thumbnail begin" then
      (if rot ∧ st.origThumbnail.start = none then
        { st with origThumbnail := { st.origThumbnail with start := some st.lineStartIdx },
                  origThumbnailLines := 1, aToken := {},
                  state := if st.thumbnail.start = none then TState.thumbnail
                           else TState.findLineStart }
       else
        { st with aToken := {},
                  state := if st.thumbnail.start = none then TState.thumbnail
                           else TState.findLineStart }, false)
    else (st, false)
  else if ch = '=' then
    let tok :=
      if st.aToken.length = 0 then { st.aToken with length := i - st.aToken.start.getD 0 }
      else st.aToken
    let stt := { st with aToken := tok }
    (if tokEq input tok "filament used [mm]" then
      commentKeyDispatch stt (some SlotId.filamentUsed)
     else if tokEq input tok "first_layer_height" then
      commentKeyDispatch stt (some SlotId.firstLayerHeight)
     else if tokEq input tok "layer_height" then
      commentKeyDispatch stt (some SlotId.layerHeight)
     else if tokEqStart input tok "estimated printing time" then
      commentKeyDispatch stt (some SlotId.estTime)
     else if tokEq input tok "first_layer_temperature" then
      commentKeyDispatch stt (some SlotId.nozzleTemp0)
     else if tokEq input tok "first_layer_bed_temperature" then
      commentKeyDispatch stt (some SlotId.plateTemp)
     else if tokEq input tok "max_print_speed" then
      commentKeyDispatch stt (some SlotId.printSpeed)
     else commentKeyDispatch { stt with state := TState.findLineStart } stt.valueToken, false)
  else if cIsSpace ch = false then
    ({ st with aToken := { st.aToken with length := i - st.aToken.start.getD 0 + 1 } }, false)
  else (st, false)

/-- State `ST_PARAMETER_VALUE` (sm2pspp.c lines 596-616).  A comma while filling
the primary nozzle-temperature slot closes it (comma included, as in the C
code) and redirects capture to the secondary slot.  The C code would
dereference a NULL `valueToken` if this state were ever entered without an
active slot; that situation is unreachable and modelled as a no-op. -/
def stepParamValue (st : St) (i : Nat) (ch : Char) : St :=
  if ch = '\n' then { st with valueToken := none, state := TState.lineStart }
  else
    match st.valueToken with
    | none => st
    | some sl =>
      let tok := getSlot st sl
      if tok.start = none then
        if cIsSpace ch = false then setSlot st sl ⟨some i, 1⟩ else st
      else if ch = ',' ∧ sl = SlotId.nozzleTemp0 then
        let st1 := setSlot st sl { tok with length := i - tok.start.getD 0 + 1 }
        { st1 with valueToken := some SlotId.nozzleTemp1 }
      else if cIsSpace ch = false then
        setSlot st sl { tok with length := i - tok.start.getD 0 + 1 }
      else st

/-- State `ST_THUMBNAIL` (sm2pspp.c lines 617-652). -/
def stepThumb (rot : Bool) (input : List Char) (st : St) (i : Nat) (ch : Char) : St :=
  let st := if rot ∧ ch = '\n' then { st with origThumbnailLines := st.origThumbnailLines + 1 }
            else st
  if st.thumbnail.start = none then
    if ch = '\n' then { st with thumbnail := { st.thumbnail with start := some (i + 1) } }
    else st
  else if ch = ';' then { st with aToken := ⟨some (i + 1), 0⟩ }
  else if st.aToken.start ≠ none then
    if cIsSpace (input.getD (st.aToken.start.getD 0) ' ') then
      { st with aToken := ⟨some i, 1⟩ }
    else
      let tok : PToken := { st.aToken with length := st.aToken.length + 1 }
      let st1 := { st with aToken := tok }
      if tokEq input tok "thumbnail end" then
        let st2 :=
          { st1 with
            thumbnail := { st1.thumbnail with
              length := st1.lineStartIdx - st1.thumbnail.start.getD 0 } }
        if rot then
          { st2 with
            origThumbnail := { st2.origThumbnail with
              length := i - st2.origThumbnail.start.getD 0 }
            state := TState.thumbnailTail }
        else { st2 with state := TState.findLineStart }
      else st1
  else st

/-- State `ST_THUMBNAIL_TAIL` (sm2pspp.c lines 654-660, only compiled with
`FEATURE_REMOVE_ORIG_THUMBNAIL`). -/
def stepThumbTail (st : St) (i : Nat) (ch : Char) : St :=
  if ch = '\n' then
    { st with
      origThumbnail := { st.origThumbnail with
        length := i + 1 - st.origThumbnail.start.getD 0 }
      state := TState.lineStart }
  else st

/-- Dispatch on the current lexer state (the `switch (state)` of the parse
loop, sm2pspp.c lines 350-662). -/
def stepState (rot : Bool) (input : List Char) (st : St) (i : Nat) (ch : Char) : StepRes :=
  match st.state with
  | TState.lineStart => (stepLineStart st i ch, false)
  | TState.findLineStart => (stepFindLineStart st ch, false)
  | TState.gcode => (stepGcode input st i ch, false)
  | TState.comment => stepComment rot input st i ch
  | TState.parameterValue => (stepParamValue st i ch, false)
  | TState.thumbnail => (stepThumb rot input st i ch, false)
  | TState.thumbnailTail => (stepThumbTail st i ch, false)

/-- The per-character bookkeeping after the state switch (sm2pspp.c
lines 663-668): newline advances the line counter and the line start,
carriage return only the line start. -/
def trailing (st : St) (i : Nat) (ch : Char) : St :=
  if ch = '\n' then { st with lineNr := st.lineNr + 1, lineStartIdx := i + 1 }
  else if ch = '\r' then { st with lineStartIdx := i + 1 }
  else st

/-- One full iteration of the parse loop for the character `ch` at byte
offset `i`. -/
def step (rot : Bool) (input : List Char) (st : St) (i : Nat) (ch : Char) : StepRes :=
  match stepState rot input st i ch with
  | (st1, true) => (st1, true)
  | (st1, false) => (trailing st1 i ch, false)

/-- Run the parse loop over the remaining enumerated characters; the
boolean is true when the loop was left early through the
already-post-processed marker. -/
def runFrom (rot : Bool) (input : List Char) : St → List (Nat × Char) → St × Bool
  | st, [] => (st, false)
  | st, (i, ch) :: rest =>
    match step rot input st i ch with
    | (st1, true) => (st1, true)
    | (st1, false) => runFrom rot input st1 rest

/-- Run the parse loop over the whole input (sm2pspp.c lines 329-669). -/
def runMachine (rot : Bool) (input : List Char) : St × Bool :=
  runFrom rot input initSt input.enum

/-- A token is missing when its start pointer is NULL or its length is 0
(the tests of sm2pspp.c lines 677-683). -/
def tokEmpty (t : PToken) : Bool :=
  t.start = none ∨ t.length = 0

/-- The minZ correction after the parse (sm2pspp.c lines 671-674): when a
first-layer-height value was captured and `minZ < maxZ`, subtract its
parsed value from `minZ`.  With the sentinel pair `none` the C comparison
`+INF < -INF` is false, so nothing happens. -/
def correctMinZ (input : List Char) (st : St) : St :=
  if st.firstLayerHeight.start ≠ none ∧ st.firstLayerHeight.length > 0 then
    match st.bbZ with
    | some (mn, mx) =>
      if MQ.Lt mn mx then
        { st with bbZ := some (MQ.sub mn (p_float (tokenChars input st.firstLayerHeight)), mx) }
      else st
    | none => st
  else st

/-- The missing-metadata warnings, in the order the code checks them
(sm2pspp.c lines 677-683). -/
def warnMsgsOf (st : St) : List Msg :=
  (if tokEmpty st.filamentUsed then [Msg.noFilamentUsed] else []) ++
  (if tokEmpty st.layerHeight then [Msg.noLayerHeight] else []) ++
  (if tokEmpty st.estTime then [Msg.noEstTime] else []) ++
  (if tokEmpty st.nozzleTemp0 then [Msg.noNozzleTemp] else []) ++
  (if tokEmpty st.plateTemp then [Msg.noPlateTemp] else []) ++
  (if tokEmpty st.printSpeed then [Msg.noPrintSpeed] else []) ++
  (if tokEmpty st.thumbnail then [Msg.noThumbnail] else [])

/-- Invoke the callback for each pending warning in order (`ON_WARN`,
sm2pspp.c lines 225-227): the first result different from 1 jumps to
`onError`.  Returns the warnings actually delivered and whether all of them
returned 1. -/
def runWarn (cb : Msg → Nat → Int) (ln : Nat) : List Msg → List Msg × Bool
  | [] => ([], true)
  | m :: r =>
    if cb m ln = 1 then
      let (w, ok) := runWarn cb ln r
      (m :: w, ok)
    else ([m], false)

/-- The base64 alphabet test used while emitting the thumbnail payload
(sm2pspp.c line 705). -/
def isBase64Char (c : Char) : Bool :=
  (c ≥ '0' ∧ c ≤ '9') ∨ (c ≥ 'a' ∧ c ≤ 'z') ∨ (c ≥ 'A' ∧ c ≤ 'Z') ∨ c = '+' ∨ c = '/' ∨ c = '='

/-- The thumbnail-emission test of sm2pspp.c line 698
(`thumbnail.start != NULL || thumbnail.length > 0`). -/
def hasThumbnailOf (st : St) : Bool :=
  st.thumbnail.start ≠ none ∨ st.thumbnail.length > 0

/-- The secondary nozzle temperature value (sm2pspp.c lines 718-724):
0 unless the secondary token was captured non-empty, in which case its
parsed value. -/
def nozzleTemp1Val (input : List Char) (st : St) : MQ :=
  if st.nozzleTemp1.start ≠ none ∧ st.nozzleTemp1.length > 0 then
    p_float (tokenChars input st.nozzleTemp1)
  else MQ.zero

/-- The emission test for the secondary nozzle-temperature header line
(sm2pspp.c lines 721 and 731): value strictly greater than 0.1. -/
def emitNozzle1 (input : List Char) (st : St) : Bool :=
  MQ.Lt ⟨1, 10⟩ (nozzleTemp1Val input st)

/-- The `;file_total_lines:` value (sm2pspp.c lines 717-728): the final
parse line counter, plus one when the secondary nozzle line is emitted,
minus the original thumbnail line span when legacy-thumbnail removal is
compiled in (C `size_t` subtraction; it never underflows on the inputs the
program constructs, and is modelled as truncated subtraction), plus the
constant 24 plus one when a thumbnail payload is emitted. -/
def fileTotalLines (rot : Bool) (input : List Char) (st : St) : Nat :=
  let ln := st.lineNr + (if emitNozzle1 input st then 1 else 0)
  let ln := if rot then ln - st.origThumbnailLines else ln
  ln + 24 + (if hasThumbnailOf st then 1 else 0)

/-- Round a nonnegative fraction `n / d` (with `d > 0`) to the nearest
natural number, ties to even, mirroring the rounding of C printf `%.*f`
under the exact-rational idealization. -/
def rnd (n d : Nat) : Nat :=
  let q := n / d
  let r := n % d
  if r * 2 < d then q
  else if d < r * 2 then q + 1
  else if q % 2 = 0 then q else q + 1

/-- Decimal digits of a natural number. -/
def natDigits (n : Nat) : List Char :=
  (toString n).toList

/-- Idealized `%.*f` rendering of an `MQ` value with `prec` digits after
the decimal point (sign, rounded digits; exact-rational idealization of the
C float formatting). -/
def fmtFixed (q : MQ) (prec : Nat) : List Char :=
  let m := rnd (q.num.natAbs * 10 ^ prec) q.den
  let sgn : List Char := if q.num < 0 then ['-'] else []
  if prec = 0 then sgn ++ natDigits m
  else
    let ip := m / 10 ^ prec
    let fp := m % 10 ^ prec
    let fs := natDigits fp
    sgn ++ natDigits ip ++ ['.'] ++ List.replicate (prec - fs.length) '0' ++ fs

/-- Rendering of one bounding-box minimum (sm2pspp.c lines 739-741):
the sentinel `+INFINITY` prints as `inf` under `%.2f`. -/
def fmtMin : Option (MQ × MQ) → List Char
  | none => "inf".toList
  | some (mn, _) => fmtFixed mn 2

/-- Rendering of one bounding-box maximum (sm2pspp.c lines 736-738):
the sentinel `-INFINITY` prints as `-inf` under `%.2f`. -/
def fmtMax : Option (MQ × MQ) → List Char
  | none => "-inf".toList
  | some (_, mx) => fmtFixed mx 2

/-- Modelled from the spec: `PROGRAM_VERSION_STR` is defined in a build
header that is not under src/; its exact value is irrelevant to every claim
checked here. -/
def programVersionStr : List Char :=
  "1.5.2".toList

/-- The `(p_float value) / 1000.0f` of the filament line, as an exact
fraction. -/
def divK (q : MQ) : MQ :=
  ⟨q.num, q.den * 1000⟩

/-- The `(p_float value) * 60.0f` of the work-speed line, as an exact
fraction. -/
def mul60 (q : MQ) : MQ :=
  ⟨q.num * 60, q.den⟩

/-- The replacement header, line by line (sm2pspp.c lines 691-742); empty
entries are the blank lines the C code prints.  The thumbnail payload line
reproduces exactly the base64-alphabet characters of the captured token, in
order, as the run-wise `fwrite` loop of lines 702-714 does. -/
def headerLines (rot : Bool) (input : List Char) (st : St) : List (List Char) :=
  [";post-processed by sm2pspp ".toList ++ programVersionStr ++
     " (https://github.com/daniel-starke/sm2pspp)".toList,
   ";Header Start".toList, [],
   ";FLAVOR:Marlin".toList,
   ";TIME:6666".toList, [], [],
   ";Filament used: ".toList ++ fmtFixed (divK (p_float (tokenChars input st.filamentUsed))) 0 ++ ['m'],
   ";Layer height: ".toList ++ fmtFixed (p_float (tokenChars input st.layerHeight)) 2,
   ";header_type: 3dp".toList] ++
  (if hasThumbnailOf st then
     [";thumbnail: data:image/png;base64,".toList ++
        (tokenChars input st.thumbnail).filter isBase64Char]
   else []) ++
  [";file_total_lines: ".toList ++ natDigits (fileTotalLines rot input st),
   ";estimated_time(s): ".toList ++ natDigits (p_dtms (tokenChars input st.estTime)),
   ";nozzle_temperature(°C): ".toList ++ fmtFixed (p_float (tokenChars input st.nozzleTemp0)) 0] ++
  (if emitNozzle1 input st then
     [";nozzle_1_temperature(°C): ".toList ++ fmtFixed (nozzleTemp1Val input st) 0]
   else []) ++
  [";build_plate_temperature(°C): ".toList ++ fmtFixed (p_float (tokenChars input st.plateTemp)) 0,
   ";work_speed(mm/minute): ".toList ++ fmtFixed (mul60 (p_float (tokenChars input st.printSpeed))) 0,
   ";max_x(mm): ".toList ++ fmtMax st.bbX,
   ";max_y(mm): ".toList ++ fmtMax st.bbY,
   ";max_z(mm): ".toList ++ fmtMax st.bbZ,
   ";min_x(mm): ".toList ++ fmtMin st.bbX,
   ";min_y(mm): ".toList ++ fmtMin st.bbY,
   ";min_z(mm): ".toList ++ fmtMin st.bbZ, [],
   ";Header End".toList, []]

/-- The header as a byte sequence: every line followed by a newline. -/
def headerChars (rot : Bool) (input : List Char) (st : St) : List Char :=
  (headerLines rot input st).foldr (fun l acc => l ++ '\n' :: acc) []

/-- The body written after the header (sm2pspp.c lines 746-756): the
original bytes, with the captured original-thumbnail span excised when
legacy-thumbnail removal is compiled in and a span was captured. -/
def bodyChars (rot : Bool) (input : List Char) (st : St) : List Char :=
  if rot ∧ st.origThumbnail.start ≠ none ∧ st.origThumbnail.length ≠ 0 then
    input.take (st.origThumbnail.start.getD 0) ++
      input.drop (st.origThumbnail.start.getD 0 + st.origThumbnail.length)
  else input

/-- Outcome of a `processFile` call: the C return value (1 success,
0 failure), the resulting content of the target file, and the warnings
delivered to the callback, in order. -/
structure PFResult where
  res : Int
  fileAfter : List Char
  warned : List Msg
deriving DecidableEq, Repr

/-- Function `processFile` (sm2pspp.c lines 224-766) under the I/O idealization:
opening always succeeds, reads return the given `input`, and writes are
collected into `fileAfter`.  An empty file returns success immediately
(line 316); recognizing the already-post-processed marker returns success
without touching the file (line 548); a callback answering anything other
than 1 to a warning aborts with failure before the file is reopened for
writing; otherwise the file is rewritten as header plus body. -/
def processFile (rot : Bool) (input : List Char) (cb : Msg → Nat → Int) : PFResult :=
  if input.length < 1 then ⟨1, input, []⟩
  else
    let (st0, early) := runMachine rot input
    if early then ⟨1, input, []⟩
    else
      let st := correctMinZ input st0
      let (ws, ok) := runWarn cb st.lineNr (warnMsgsOf st)
      if ok then ⟨1, headerChars rot input st ++ bodyChars rot input st, ws⟩
      else ⟨0, input, ws⟩

/-- The start offset of a metadata capture slot (NULL start means the slot
has not been filled yet). -/
def slotStart (st : St) (sl : SlotId) : Option Nat :=
  (getSlot st sl).start

/-- One bounding-box axis is ordered: either still the sentinel pair
`(+INF, -INF)` represented as `none`, or a finite pair with min at most
max. -/
def axLe : Option (MQ × MQ) → Prop
  | none => True
  | some (mn, mx) => MQ.Le mn mx

instance (o : Option (MQ × MQ)) : Decidable (axLe o) := by
  unfold axLe; cases o with
  | none => exact inferInstance
  | some p => exact inferInstanceAs (Decidable (MQ.Le p.1 p.2))

/-- The reading of per-axis min at most max under which the sentinel pair
`(+INF, -INF)` violates the inequality, as the claim about the final
bounding box states it. -/
def axMinLeMax : Option (MQ × MQ) → Prop
  | none => False
  | some (mn, mx) => MQ.Le mn mx

instance (o : Option (MQ × MQ)) : Decidable (axMinLeMax o) := by
  unfold axMinLeMax; cases o with
  | none => exact inferInstance
  | some p => exact inferInstanceAs (Decidable (MQ.Le p.1 p.2))

/-- The bounding-box invariant of the parse state: if no extruding linear
move was dispatched yet, all axes are still at the sentinels; and every
axis is ordered. -/
def bbInv (st : St) : Prop :=
  (st.everExt = false → st.bbX = none ∧ st.bbY = none ∧ st.bbZ = none) ∧
    axLe st.bbX ∧ axLe st.bbY ∧ axLe st.bbZ

/-- The list `l` begins with the list `p`. -/
def leadsWith (p l : List Char) : Prop :=
  l.take p.length = p

instance (p l : List Char) : Decidable (leadsWith p l) := by
  unfold leadsWith; infer_instance

/-- Relation between a parse state and a successor used for the run-level
invariants: every filled metadata slot keeps its start offset, and the
bounding-box invariant is preserved. -/
def Frame (a b : St) : Prop :=
  (∀ sl s, slotStart a sl = some s → slotStart b sl = some s) ∧
    (bbInv a → bbInv b)

/-- The first component of the `p_dtms` fold is untouched by digit
characters: only a unit suffix moves `val` into `res`. -/
theorem p_dtms_foldl_digits (t : List Char) :
    ∀ p : Nat × Nat, (∀ c ∈ t, c.isDigit = true) → (t.foldl p_dtmsStep p).1 = p.1 := by
  induction t with
  | nil => intro p _; rfl
  | cons c r ih =>
    intro p h
    have hc : c.isDigit = true := h c (List.mem_cons_self c r)
    have hr : ∀ d ∈ r, d.isDigit = true := fun d hd => h d (List.mem_cons_of_mem c hd)
    simp only [List.foldl_cons]
    rw [ih _ hr]
    simp [p_dtmsStep, hc]

/-- C5: the duration parser maps 1h2m3s to 3723 seconds, 90s to 90 and 2d
to 172800, and a trailing run of digits that is not terminated by one of
the unit letters d, h, m, s contributes 0 to the result. -/
theorem c5_duration_dhms :
    p_dtms "1h2m3s".toList = 3723 ∧ p_dtms "90s".toList = 90 ∧
    p_dtms "2d".toList = 172800 ∧
    (∀ s t : List Char, (∀ c ∈ t, c.isDigit = true) → p_dtms (s ++ t) = p_dtms s) := by
  refine ⟨by decide, by decide, by decide, ?_⟩
  intro s t h
  unfold p_dtms
  rw [List.foldl_append]
  exact p_dtms_foldl_digits t _ h

/-- Witness for `c5_duration_dhms` at the concrete input 1h followed by
the unitless digit run 23. -/
theorem c5_duration_dhms_witness :
    (∀ c ∈ "23".toList, c.isDigit = true) ∧
      p_dtms ("1h".toList ++ "23".toList) = p_dtms "1h".toList :=
  ⟨by decide, c5_duration_dhms.2.2.2 "1h".toList "23".toList (by decide)⟩

/-- The characters past the optional leading minus sign of a `p_float`
input. -/
def floatBody (s : List Char) : List Char :=
  match s with
  | [] => []
  | c :: r => if c = '-' then r else c :: r

/-- The `p_float` core loop consumes a run of digits and dots completely
and stops at the first following character that is neither. -/
theorem p_floatCore_append (u : List Char) :
    ∀ (c : Char) (t : List Char) (val frac fracDiv : Nat) (isFrac : Bool),
      (∀ d ∈ u, d.isDigit = true ∨ d = '.') → c.isDigit = false → c ≠ '.' →
      p_floatCore (u ++ c :: t) val frac fracDiv isFrac =
        p_floatCore u val frac fracDiv isFrac := by
  induction u with
  | nil =>
    intro c t val frac fracDiv isFrac _ hc hdot
    simp [p_floatCore, hc, hdot]
  | cons d r ih =>
    intro c t val frac fracDiv isFrac h hc hdot
    have hd : d.isDigit = true ∨ d = '.' := h d (List.mem_cons_self d r)
    have hr : ∀ e ∈ r, e.isDigit = true ∨ e = '.' := fun e he => h e (List.mem_cons_of_mem d he)
    rcases hd with hd | hd
    · cases isFrac <;> simp [p_floatCore, hd, ih c t _ _ _ _ hr hc hdot]
    · subst hd
      by_cases hdig : Char.isDigit '.'
      · cases hdig
      · simp [p_floatCore, hdig, ih c t _ _ _ _ hr hc hdot]

/-- C6 counterexample: the float parser does not stop at a second decimal
point.  On the input 1.2.3 the claimed grammar (optional minus, digits, at
most one dot, digits) ends before the second dot, so the claim predicts
the value of 1.2; the code instead treats the second dot as a further
switch to fraction mode and yields 1.23. -/
theorem c6_float_parser_counterexample :
    p_float "1.2.3".toList = ⟨123, 100⟩ ∧
      (p_float "1.2.3".toList).toRat ≠ (p_float "1.2".toList).toRat := by
  constructor
  · decide
  · have h1 : p_float "1.2.3".toList = ⟨123, 100⟩ := by decide
    have h2 : p_float "1.2".toList = ⟨12, 10⟩ := by decide
    rw [h1, h2]
    norm_num [MQ.toRat]

/-- C6 (amended): the float parser accepts an optional single leading
minus sign, then any run of digits and decimal points (each dot switching
to fraction mode), and stops converting at the first character that is
neither a digit nor a dot; in particular -3.50xyz parses to -3.5. -/
theorem c6_float_parser_amended :
    (p_float "-3.50xyz".toList).toRat = -(7 / 2) ∧
    (∀ (s : List Char) (c : Char) (t : List Char),
      s ≠ [] → (∀ d ∈ floatBody s, d.isDigit = true ∨ d = '.') →
      c.isDigit = false → c ≠ '.' →
      p_float (s ++ c :: t) = p_float s) := by
  constructor
  · have h : p_float "-3.50xyz".toList = ⟨-350, 100⟩ := by decide
    rw [h]; norm_num [MQ.toRat]
  · intro s c t hs hbody hc hdot
    match s, hs with
    | x :: r, _ =>
      by_cases hx : x = '-'
      · subst hx
        have hb : ∀ d ∈ r, d.isDigit = true ∨ d = '.' := by
          simpa [floatBody] using hbody
        simp [p_float, p_floatCore_append r c t 0 0 1 false hb hc hdot]
      · have hb : ∀ d ∈ x :: r, d.isDigit = true ∨ d = '.' := by
          simpa [floatBody, hx] using hbody
        have hcore := p_floatCore_append (x :: r) c t 0 0 1 false hb hc hdot
        simp only [p_float, List.cons_append, hx, if_false]
        simp only [List.cons_append] at hcore
        simp [hcore]

/-- Witness for `c6_float_parser_amended` at the concrete prefix -3.5 and
stop character x. -/
theorem c6_float_parser_witness :
    (("-3.5".toList : List Char) ≠ [] ∧
      (∀ d ∈ floatBody "-3.5".toList, d.isDigit = true ∨ d = '.') ∧
      Char.isDigit 'x' = false ∧ 'x' ≠ '.') ∧
      p_float ("-3.5".toList ++ 'x' :: "yz".toList) = p_float "-3.5".toList :=
  ⟨⟨by decide, by decide, by decide, by decide⟩,
    c6_float_parser_amended.2 "-3.5".toList 'x' "yz".toList
      (by decide) (by decide) (by decide) (by decide)⟩

set_option maxHeartbeats 1000000 in
/-- C2 (amended): a file that begins with the comment marker
post-processed by sm2pspp followed by a space character is recognized as
already converted: `processFile` succeeds, invokes no warning callback and
leaves the file content unchanged, for every continuation of the input,
every callback and either compile-time thumbnail-removal setting. -/
theorem c2_marker_followed_by_space_idempotent (rot : Bool) (rest : List Char)
    (cb : Msg → Nat → Int) :
    processFile rot (";post-processed by sm2pspp ".toList ++ rest) cb =
      ⟨1, ";post-processed by sm2pspp ".toList ++ rest, []⟩ :=
  rfl

/-- C2 counterexample: a file whose first (and only) comment is exactly
the marker word post-processed by sm2pspp but with no space after it (the
comment ends in a newline instead) is not recognized: the marker
comparison only runs on a space character, so the file is rewritten — the
result differs from the input even though `processFile` reports success. -/
theorem c2_marker_without_space_rewrites :
    (processFile false ";post-processed by sm2pspp\n".toList (fun _ _ => 1)).res = 1 ∧
      (processFile false ";post-processed by sm2pspp\n".toList (fun _ _ => 1)).fileAfter ≠
        ";post-processed by sm2pspp\n".toList := by
  constructor
  · decide
  · decide

/-- C10: for an empty input file `processFile` returns success, invokes no
warning callback and leaves the file unchanged. -/
theorem c10_empty_input_success (rot : Bool) (cb : Msg → Nat → Int) :
    processFile rot [] cb = ⟨1, [], []⟩ :=
  rfl

/-- Cross-multiplied order is reflexive. -/
theorem MQ.le_refl (a : MQ) : MQ.Le a a :=
  Int.le_refl _

/-- Failed strict comparison gives the reverse non-strict one, as for the
cross-multiplied fractions. -/
theorem MQ.le_of_not_lt {a b : MQ} (h : ¬ MQ.Lt b a) : MQ.Le a b :=
  Int.not_lt.mp h

/-- Folding a value into an ordered axis keeps it ordered. -/
theorem axLe_bbFold {bb : Option (MQ × MQ)} (h : axLe bb) (v : MQ) : axLe (bbFold bb v) := by
  cases bb with
  | none => exact MQ.le_refl v
  | some p =>
    obtain ⟨mn, mx⟩ := p
    simp only [axLe] at h
    simp only [bbFold, axLe]
    split_ifs with h1 h2 h2
    · exact MQ.le_refl v
    · exact MQ.le_of_not_lt h2
    · exact MQ.le_of_not_lt h1
    · exact h

/-- Folding an optional value into an ordered axis keeps it ordered. -/
theorem axLe_bbFoldOpt {bb : Option (MQ × MQ)} (h : axLe bb) (ov : Option MQ) :
    axLe (bbFoldOpt bb ov) := by
  cases ov with
  | none => exact h
  | some v => exact axLe_bbFold h v

/-- Reading a slot after writing one. -/
theorem slotStart_setSlot (st : St) (sl0 sl : SlotId) (t : PToken) :
    slotStart (setSlot st sl0 t) sl = if sl = sl0 then t.start else slotStart st sl := by
  cases sl0 <;> cases sl <;> simp [setSlot, slotStart, getSlot]

/-- Frame facts for the parameter dispatch: it only writes `code` or one of
the `param` floats. -/
theorem dispatchParam_frame (input : List Char) (st : St) :
    (dispatchParam input st).lineNr = st.lineNr ∧
    (∀ sl, slotStart (dispatchParam input st) sl = slotStart st sl) ∧
    (dispatchParam input st).everExt = st.everExt ∧
    (dispatchParam input st).bbX = st.bbX ∧
    (dispatchParam input st).bbY = st.bbY ∧
    (dispatchParam input st).bbZ = st.bbZ := by
  unfold dispatchParam
  split <;> exact ⟨rfl, fun sl => by cases sl <;> rfl, rfl, rfl, rfl, rfl⟩

/-- The G-code dispatch does not touch the line counter. -/
theorem applyGcode_lineNr (st : St) : (applyGcode st).lineNr = st.lineNr := by
  unfold applyGcode
  dsimp only
  split_ifs <;> rfl

/-- The G-code dispatch does not touch the metadata slots. -/
theorem applyGcode_slotStart (st : St) (sl : SlotId) :
    slotStart (applyGcode st) sl = slotStart st sl := by
  unfold applyGcode
  dsimp only
  split_ifs <;> (cases sl <;> rfl)

/-- The G-code dispatch preserves the bounding-box invariant: it folds
coordinates into the box only on an extruding move, which also raises the
extrusion flags, and folding keeps every axis ordered. -/
theorem applyGcode_bbInv (st : St) (h : bbInv st) : bbInv (applyGcode st) := by
  obtain ⟨himp, hx, hy, hz⟩ := h
  unfold applyGcode
  by_cases hc : st.code = GCODE 0 ∨ st.code = GCODE 1
  · rw [if_pos hc]
    dsimp only
    by_cases h2 : extruding st = true ∧ st.prevExt = false
    · rw [if_pos h2, if_pos h2.1]
      refine ⟨fun hfalse => by simp at hfalse, ?_, ?_, ?_⟩ <;> dsimp only <;> split_ifs <;>
        first
          | exact axLe_bbFoldOpt (axLe_bbFoldOpt hx _) _
          | exact axLe_bbFoldOpt (axLe_bbFoldOpt hy _) _
          | exact axLe_bbFoldOpt (axLe_bbFoldOpt hz _) _
          | exact axLe_bbFoldOpt hx _
          | exact axLe_bbFoldOpt hy _
          | exact axLe_bbFoldOpt hz _
          | exact hx
          | exact hy
          | exact hz
    · rw [if_neg h2]
      by_cases h3 : extruding st = true
      · rw [if_pos h3]
        refine ⟨fun hfalse => by simp at hfalse, ?_, ?_, ?_⟩ <;> dsimp only <;> split_ifs <;>
          first
            | exact axLe_bbFoldOpt hx _
            | exact axLe_bbFoldOpt hy _
            | exact axLe_bbFoldOpt hz _
            | exact hx
            | exact hy
            | exact hz
      · rw [if_neg h3]
        exact ⟨himp, hx, hy, hz⟩
  · rw [if_neg hc]
    split_ifs <;> exact ⟨himp, hx, hy, hz⟩

/-- Frame facts for `ST_LINE_START`: line counter unchanged, filled slots
stay filled with the same start, bounding-box invariant preserved. -/
theorem stepLineStart_frame (st : St) (i : Nat) (ch : Char) :
    (stepLineStart st i ch).lineNr = st.lineNr ∧ Frame st (stepLineStart st i ch) := by
  unfold stepLineStart
  split_ifs <;> exact ⟨rfl, fun sl s hs => hs, fun hb => hb⟩

/-- Frame facts for `ST_FIND_LINE_START`. -/
theorem stepFindLineStart_frame (st : St) (ch : Char) :
    (stepFindLineStart st ch).lineNr = st.lineNr ∧ Frame st (stepFindLineStart st ch) := by
  unfold stepFindLineStart
  split_ifs <;> exact ⟨rfl, fun sl s hs => hs, fun hb => hb⟩


/-- Relation `Frame` composes. -/
theorem Frame.trans {a b c : St} (h1 : Frame a b) (h2 : Frame b c) : Frame a c :=
  ⟨fun sl s hs => h2.1 sl s (h1.1 sl s hs), fun hb => h2.2 (h1.2 hb)⟩

/-- A state with the same extrusion flag and bounding box satisfies the
bounding-box invariant as soon as the original does. -/
theorem bbInv_of_eq {a b : St} (he : b.everExt = a.everExt) (hx : b.bbX = a.bbX)
    (hy : b.bbY = a.bbY) (hz : b.bbZ = a.bbZ) (h : bbInv a) : bbInv b := by
  unfold bbInv at h ⊢
  rw [he, hx, hy, hz]
  exact h

/-- The parameter dispatch is a frame step. -/
theorem dispatchParam_Frame (input : List Char) (st : St) :
    Frame st (dispatchParam input st) := by
  obtain ⟨h1, h2, h3, h4, h5, h6⟩ := dispatchParam_frame input st
  exact ⟨fun sl s hs => by rw [h2]; exact hs, fun hb => bbInv_of_eq h3 h4 h5 h6 hb⟩

/-- The G-code dispatch is a frame step. -/
theorem applyGcode_Frame (st : St) : Frame st (applyGcode st) :=
  ⟨fun sl s hs => by rw [applyGcode_slotStart]; exact hs, applyGcode_bbInv st⟩

/-- Frame facts for `ST_GCODE`: the only writes outside the scratch token
and the parameter registers happen in the parameter and G-code
dispatches, both frame steps. -/
theorem stepGcode_frame (input : List Char) (st : St) (i : Nat) (ch : Char) :
    (stepGcode input st i ch).lineNr = st.lineNr ∧ Frame st (stepGcode input st i ch) := by
  unfold stepGcode
  have hd1 := (dispatchParam_frame input st).1
  have hD : Frame st { dispatchParam input st with param := TParam.pUnknown } :=
    (dispatchParam_Frame input st).trans ⟨fun sl s hs => hs, fun hb => hb⟩
  split_ifs <;>
    first
      | exact ⟨rfl, fun sl s hs => hs, fun hb => hb⟩
      | exact ⟨by rw [show ∀ a : St, ({ a with state := TState.lineStart } : St).lineNr = a.lineNr
                        from fun a => rfl, applyGcode_lineNr]; exact hd1,
               hD.trans ((applyGcode_Frame _).trans ⟨fun sl s hs => hs, fun hb => hb⟩)⟩
      | exact ⟨by rw [show ∀ a : St,
                        ({ a with aToken := {}, state := TState.comment } : St).lineNr = a.lineNr
                        from fun a => rfl, applyGcode_lineNr]; exact hd1,
               hD.trans ((applyGcode_Frame _).trans ⟨fun sl s hs => hs, fun hb => hb⟩)⟩
      | exact ⟨hd1, hD⟩

/-- Frame facts for the key-dispatch tail of the comment state: it writes
only `valueToken`, `aToken` and `state`. -/
theorem commentKeyDispatch_frame (st : St) (vt : Option SlotId) :
    (commentKeyDispatch st vt).lineNr = st.lineNr ∧ Frame st (commentKeyDispatch st vt) := by
  unfold commentKeyDispatch
  repeat' (first | split | dsimp only)
  all_goals exact ⟨rfl, fun sl s hs => hs, fun hb => hb⟩

/-- Frame facts for `ST_COMMENT` (on the state component of the result):
apart from scratch-token and state bookkeeping it only resets the bounding
box on the first layer-change marker, which trivially re-establishes the
bounding-box invariant; metadata slots are untouched. -/
theorem stepComment_frame (rot : Bool) (input : List Char) (st : St) (i : Nat) (ch : Char) :
    (stepComment rot input st i ch).1.lineNr = st.lineNr ∧
      Frame st (stepComment rot input st i ch).1 := by
  unfold stepComment
  by_cases h1 : ch = '\n'
  · rw [if_pos h1]
    dsimp only
    split
    · exact ⟨rfl, fun sl s hs => hs,
        fun _ => ⟨fun _ => ⟨rfl, rfl, rfl⟩, trivial, trivial, trivial⟩⟩
    · exact ⟨rfl, fun sl s hs => hs, fun hb => hb⟩
  · rw [if_neg h1]
    by_cases h2 : st.aToken.start = none
    · rw [if_pos h2]
      dsimp only
      split <;> exact ⟨rfl, fun sl s hs => hs, fun hb => hb⟩
    · rw [if_neg h2]
      by_cases h3 : ch = ' ' ∧ st.aToken.length > 0
      · rw [if_pos h3]
        by_cases h4 : tokEq input st.aToken "post-processed by sm2pspp" = true
        · rw [if_pos h4]
          exact ⟨rfl, fun sl s hs => hs, fun hb => hb⟩
        · rw [if_neg h4]
          by_cases h5 : tokEq input st.aToken "thumbnail begin" = true
          · rw [if_pos h5]
            dsimp only
            split <;> exact ⟨rfl, fun sl s hs => hs, fun hb => hb⟩
          · rw [if_neg h5]
            exact ⟨rfl, fun sl s hs => hs, fun hb => hb⟩
      · rw [if_neg h3]
        by_cases h6 : ch = '='
        · rw [if_pos h6]
          dsimp only
          split_ifs <;>
            first
              | exact commentKeyDispatch_frame _ _
              | exact ⟨(commentKeyDispatch_frame _ _).1,
                  (Frame.trans ⟨fun sl s hs => hs, fun hb => hb⟩
                    (commentKeyDispatch_frame _ _).2)⟩
        · rw [if_neg h6]
          by_cases h7 : cIsSpace ch = false
          · rw [if_pos h7]
            exact ⟨rfl, fun sl s hs => hs, fun hb => hb⟩
          · rw [if_neg h7]
            exact ⟨rfl, fun sl s hs => hs, fun hb => hb⟩

/-- Frame facts for `ST_PARAMETER_VALUE`: a slot is written fresh only
when its start is still NULL, and a length update keeps the start offset;
nothing else is modified. -/
theorem stepParamValue_frame (st : St) (i : Nat) (ch : Char) :
    (stepParamValue st i ch).lineNr = st.lineNr ∧ Frame st (stepParamValue st i ch) := by
  unfold stepParamValue
  by_cases h1 : ch = '\n'
  · rw [if_pos h1]
    exact ⟨rfl, fun sl s hs => hs, fun hb => hb⟩
  · rw [if_neg h1]
    dsimp only
    split
    · exact ⟨rfl, fun sl s hs => hs, fun hb => hb⟩
    next sl0 heq =>
      by_cases h2 : (getSlot st sl0).start = none
      · rw [if_pos h2]
        split_ifs with h3
        · refine ⟨by cases sl0 <;> rfl, fun sl s hs => ?_, ?_⟩
          · rw [slotStart_setSlot]
            split_ifs with he
            · subst he
              rw [slotStart, h2] at hs
              cases hs
            · exact hs
          · intro hb
            refine bbInv_of_eq ?_ ?_ ?_ ?_ hb <;> cases sl0 <;> rfl
        · exact ⟨rfl, fun sl s hs => hs, fun hb => hb⟩
      · rw [if_neg h2]
        split_ifs with h3 h4
        · refine ⟨by cases sl0 <;> rfl, fun sl s hs => ?_, ?_⟩
          · rw [show ∀ a : St, slotStart { a with valueToken := some SlotId.nozzleTemp1 } sl =
                  slotStart a sl from fun a => by cases sl <;> rfl]
            rw [slotStart_setSlot]
            split_ifs with he
            · subst he
              rw [slotStart] at hs
              rw [← hs]
            · exact hs
          · intro hb
            refine bbInv_of_eq ?_ ?_ ?_ ?_ hb <;> cases sl0 <;> rfl
        · refine ⟨by cases sl0 <;> rfl, fun sl s hs => ?_, ?_⟩
          · rw [slotStart_setSlot]
            split_ifs with he
            · subst he
              rw [slotStart] at hs
              rw [← hs]
            · exact hs
          · intro hb
            refine bbInv_of_eq ?_ ?_ ?_ ?_ hb <;> cases sl0 <;> rfl
        · exact ⟨rfl, fun sl s hs => hs, fun hb => hb⟩

set_option maxHeartbeats 1000000 in
/-- Frame facts for `ST_THUMBNAIL`: it writes only the thumbnail tokens,
the scratch token, the original-thumbnail bookkeeping and the state. -/
theorem stepThumb_frame (rot : Bool) (input : List Char) (st : St) (i : Nat) (ch : Char) :
    (stepThumb rot input st i ch).lineNr = st.lineNr ∧ Frame st (stepThumb rot input st i ch) := by
  unfold stepThumb
  repeat' (first | split | dsimp only)
  all_goals exact ⟨rfl, fun sl s hs => hs, fun hb => hb⟩

/-- Frame facts for `ST_THUMBNAIL_TAIL`. -/
theorem stepThumbTail_frame (st : St) (i : Nat) (ch : Char) :
    (stepThumbTail st i ch).lineNr = st.lineNr ∧ Frame st (stepThumbTail st i ch) := by
  unfold stepThumbTail
  split_ifs <;> exact ⟨rfl, fun sl s hs => hs, fun hb => hb⟩

/-- Frame facts for the per-character bookkeeping: the line counter grows
by one exactly on a newline; slots and bounding box are untouched. -/
theorem trailing_frame (st : St) (i : Nat) (ch : Char) :
    (trailing st i ch).lineNr = st.lineNr + (if ch = '\n' then 1 else 0) ∧
      Frame st (trailing st i ch) := by
  unfold trailing
  split_ifs <;> exact ⟨rfl, fun sl s hs => hs, fun hb => hb⟩

/-- Frame facts for the whole state switch. -/
theorem stepState_frame (rot : Bool) (input : List Char) (st : St) (i : Nat) (ch : Char) :
    (stepState rot input st i ch).1.lineNr = st.lineNr ∧
      Frame st (stepState rot input st i ch).1 := by
  unfold stepState
  cases st.state
  · exact stepLineStart_frame st i ch
  · exact stepFindLineStart_frame st ch
  · exact stepGcode_frame input st i ch
  · exact stepComment_frame rot input st i ch
  · exact stepParamValue_frame st i ch
  · exact stepThumb_frame rot input st i ch
  · exact stepThumbTail_frame st i ch

/-- Frame facts for one full loop iteration: on a non-exiting step the
line counter grows by the newline indicator, on an exiting step the state
is frozen; slots and bounding box are preserved either way. -/
theorem step_frame (rot : Bool) (input : List Char) (st : St) (i : Nat) (ch : Char) :
    Frame st (step rot input st i ch).1 ∧
      ((step rot input st i ch).2 = false →
        (step rot input st i ch).1.lineNr = st.lineNr + (if ch = '\n' then 1 else 0)) := by
  obtain ⟨hln, hfr⟩ := stepState_frame rot input st i ch
  unfold step
  cases hss : stepState rot input st i ch with
  | mk st1 ex =>
    rw [hss] at hln hfr
    cases ex
    · dsimp only
      obtain ⟨htln, htfr⟩ := trailing_frame st1 i ch
      exact ⟨hfr.trans htfr, fun _ => by rw [htln, hln]⟩
    · exact ⟨hfr, fun hfalse => by cases hfalse⟩

/-- The whole run is a frame step: filled slots and the bounding-box
invariant survive any sequence of loop iterations, with or without an
early exit. -/
theorem runFrom_Frame (rot : Bool) (input : List Char) :
    ∀ (l : List (Nat × Char)) (st : St), Frame st (runFrom rot input st l).1 := by
  intro l
  induction l with
  | nil => exact fun st => ⟨fun sl s hs => hs, fun hb => hb⟩
  | cons p rest ih =>
    intro st
    obtain ⟨i, ch⟩ := p
    obtain ⟨hfr, _⟩ := step_frame rot input st i ch
    unfold runFrom
    cases hstep : step rot input st i ch with
    | mk st1 ex =>
      rw [hstep] at hfr
      cases ex
      · exact hfr.trans (ih st1)
      · exact hfr

/-- Without an early exit, the final line counter is the initial one plus
the number of newline characters consumed. -/
theorem runFrom_lineNr (rot : Bool) (input : List Char) :
    ∀ (l : List (Nat × Char)) (st : St), (runFrom rot input st l).2 = false →
      (runFrom rot input st l).1.lineNr = st.lineNr + (l.map Prod.snd).count '\n' := by
  intro l
  induction l with
  | nil => intro st _; simp [runFrom]
  | cons p rest ih =>
    intro st hno
    obtain ⟨i, ch⟩ := p
    obtain ⟨_, hln⟩ := step_frame rot input st i ch
    unfold runFrom at hno ⊢
    cases hstep : step rot input st i ch with
    | mk st1 ex =>
      rw [hstep] at hno hln
      cases ex
      · have h1 := hln rfl
        dsimp only at hno h1 ⊢
        rw [ih st1 hno, h1]
        simp [List.count_cons]
        by_cases hc : ch = '\n' <;> simp [hc] <;> omega
      · dsimp only at hno
        cases hno

/-- On a linear move the new x coordinate is the axis update of the old
one. -/
theorem applyGcode_x (st : St) (h : st.code = GCODE 0 ∨ st.code = GCODE 1) :
    (applyGcode st).x = updAxis st.isAbsPos st.x st.paramX := by
  unfold applyGcode
  rw [if_pos h]
  dsimp only
  split_ifs <;> rfl

/-- On a linear move the new y coordinate is the axis update of the old
one. -/
theorem applyGcode_y (st : St) (h : st.code = GCODE 0 ∨ st.code = GCODE 1) :
    (applyGcode st).y = updAxis st.isAbsPos st.y st.paramY := by
  unfold applyGcode
  rw [if_pos h]
  dsimp only
  split_ifs <;> rfl

/-- On a linear move the new z coordinate is the axis update of the old
one. -/
theorem applyGcode_z (st : St) (h : st.code = GCODE 0 ∨ st.code = GCODE 1) :
    (applyGcode st).z = updAxis st.isAbsPos st.z st.paramZ := by
  unfold applyGcode
  rw [if_pos h]
  dsimp only
  split_ifs <;> rfl

/-- C3: the positioning mode starts as absolute; the G90 dispatch sets it
to absolute and G91 to relative, and the dispatch of any other command
code leaves it unchanged; on a linear move G0/G1, each axis parameter
present in the command replaces the corresponding coordinate in absolute
mode and is added to it in relative mode, and an absent axis parameter
leaves the coordinate unchanged. -/
theorem c3_positioning_mode :
    initSt.isAbsPos = true ∧
    (∀ st : St, st.code = GCODE 90 → (applyGcode st).isAbsPos = true) ∧
    (∀ st : St, st.code = GCODE 91 → (applyGcode st).isAbsPos = false) ∧
    (∀ st : St, st.code ≠ GCODE 90 → st.code ≠ GCODE 91 →
      (applyGcode st).isAbsPos = st.isAbsPos) ∧
    (∀ st : St, st.code = GCODE 0 ∨ st.code = GCODE 1 →
      ((st.paramX = none → (applyGcode st).x = st.x) ∧
       (∀ v, st.paramX = some v → st.isAbsPos = true → (applyGcode st).x = some v) ∧
       (∀ v c, st.paramX = some v → st.isAbsPos = false → st.x = some c →
         (applyGcode st).x = some (MQ.add c v))) ∧
      ((st.paramY = none → (applyGcode st).y = st.y) ∧
       (∀ v, st.paramY = some v → st.isAbsPos = true → (applyGcode st).y = some v) ∧
       (∀ v c, st.paramY = some v → st.isAbsPos = false → st.y = some c →
         (applyGcode st).y = some (MQ.add c v))) ∧
      ((st.paramZ = none → (applyGcode st).z = st.z) ∧
       (∀ v, st.paramZ = some v → st.isAbsPos = true → (applyGcode st).z = some v) ∧
       (∀ v c, st.paramZ = some v → st.isAbsPos = false → st.z = some c →
         (applyGcode st).z = some (MQ.add c v)))) := by
  refine ⟨rfl, ?_, ?_, ?_, ?_⟩
  · intro st h
    unfold applyGcode
    rw [if_neg, if_pos h]
    rw [h]
    decide
  · intro st h
    unfold applyGcode
    rw [if_neg, if_neg, if_pos h]
    · rw [h]; decide
    · rw [h]; decide
  · intro st h90 h91
    unfold applyGcode
    dsimp only
    split_ifs with h1 h2 <;> first | rfl | exact absurd (by assumption) h90 | exact absurd (by assumption) h91
  · intro st h
    refine ⟨⟨?_, ?_, ?_⟩, ⟨?_, ?_, ?_⟩, ⟨?_, ?_, ?_⟩⟩ <;>
      first
        | (intro hp
           rw [applyGcode_x st h, hp]
           rfl)
        | (intro v hp habs
           rw [applyGcode_x st h, hp, habs]
           rfl)
        | (intro v c hp habs hc
           rw [applyGcode_x st h, hp, habs, hc]
           rfl)
        | (intro hp
           rw [applyGcode_y st h, hp]
           rfl)
        | (intro v hp habs
           rw [applyGcode_y st h, hp, habs]
           rfl)
        | (intro v c hp habs hc
           rw [applyGcode_y st h, hp, habs, hc]
           rfl)
        | (intro hp
           rw [applyGcode_z st h, hp]
           rfl)
        | (intro v hp habs
           rw [applyGcode_z st h, hp, habs]
           rfl)
        | (intro v c hp habs hc
           rw [applyGcode_z st h, hp, habs, hc]
           rfl)

/-- Witness for `c3_positioning_mode` at concrete dispatch states: G90
turns relative mode back to absolute, G91 sets relative mode, a G5 leaves
the mode alone, and a relative G1 with X5 adds 5 to the current x = 2. -/
theorem c3_positioning_mode_witness :
    (applyGcode { initSt with code := GCODE 90, isAbsPos := false }).isAbsPos = true ∧
    (applyGcode { initSt with code := GCODE 91 }).isAbsPos = false ∧
    (applyGcode { initSt with code := GCODE 5 }).isAbsPos = true ∧
    (applyGcode
        { initSt with
          code := GCODE 1
          paramX := some ⟨5, 1⟩
          x := some ⟨2, 1⟩
          isAbsPos := false }).x = some (MQ.add ⟨2, 1⟩ ⟨5, 1⟩) :=
  ⟨c3_positioning_mode.2.1 _ rfl,
   c3_positioning_mode.2.2.1 _ rfl,
   c3_positioning_mode.2.2.2.1 _ (by decide) (by decide),
   ((c3_positioning_mode.2.2.2.2 _ (Or.inr rfl)).1.2.2 ⟨5, 1⟩ ⟨2, 1⟩ rfl rfl rfl)⟩

/-- When the callback answers 1 to every pending warning, all of them are
delivered in order and the check passes. -/
theorem runWarn_all_ok (cb : Msg → Nat → Int) (ln : Nat) :
    ∀ l : List Msg, (∀ m ∈ l, cb m ln = 1) → runWarn cb ln l = (l, true) := by
  intro l
  induction l with
  | nil => intro _; rfl
  | cons m r ih =>
    intro h
    unfold runWarn
    rw [if_pos (h m (List.mem_cons_self m r))]
    rw [ih (fun d hd => h d (List.mem_cons_of_mem m hd))]

/-- When the callback answers anything other than 1 to some pending
warning, the check fails. -/
theorem runWarn_bad (cb : Msg → Nat → Int) (ln : Nat) :
    ∀ l : List Msg, (∃ m ∈ l, cb m ln ≠ 1) → (runWarn cb ln l).2 = false := by
  intro l
  induction l with
  | nil => rintro ⟨m, hm, _⟩; cases hm
  | cons m r ih =>
    rintro ⟨d, hd, hbad⟩
    unfold runWarn
    by_cases hm : cb m ln = 1
    · rw [if_pos hm]
      rcases List.mem_cons.mp hd with rfl | hd2
      · exact absurd hm hbad
      · cases hrw : runWarn cb ln r with
        | mk w ok =>
          have := ih ⟨d, hd2, hbad⟩
          rw [hrw] at this
          simpa [hrw] using this
    · rw [if_neg hm]

/-- C4: warning callbacks run only after the parse pass has completed
(they are a function of the final parse state) and before the file is
reopened for writing: when any of the pending missing-metadata warnings is
answered with something other than 1, `processFile` returns failure and
the target file content is unchanged; when all of them are answered with
1, every pending warning was delivered and processing continues to a
successful rewrite.  No abort can occur mid-parse or mid-write. -/
theorem c4_warning_callback_gate (rot : Bool) (input : List Char) (cb : Msg → Nat → Int)
    (hlen : 1 ≤ input.length) (hnoexit : (runMachine rot input).2 = false) :
    ((∃ m ∈ warnMsgsOf (correctMinZ input (runMachine rot input).1),
        cb m (correctMinZ input (runMachine rot input).1).lineNr ≠ 1) →
      (processFile rot input cb).res = 0 ∧ (processFile rot input cb).fileAfter = input) ∧
    ((∀ m ∈ warnMsgsOf (correctMinZ input (runMachine rot input).1),
        cb m (correctMinZ input (runMachine rot input).1).lineNr = 1) →
      (processFile rot input cb).res = 1 ∧
        (processFile rot input cb).warned =
          warnMsgsOf (correctMinZ input (runMachine rot input).1)) := by
  unfold processFile
  rw [if_neg (by omega : ¬ input.length < 1)]
  cases hrm : runMachine rot input with
  | mk st0 early =>
    rw [hrm] at hnoexit
    dsimp only at hnoexit
    subst hnoexit
    dsimp only
    constructor
    · intro hex
      have hbad := runWarn_bad cb (correctMinZ input st0).lineNr _ hex
      cases hrw : runWarn cb (correctMinZ input st0).lineNr (warnMsgsOf (correctMinZ input st0)) with
      | mk ws ok =>
        rw [hrw] at hbad
        dsimp only at hbad
        subst hbad
        simp
    · intro hall
      rw [runWarn_all_ok cb (correctMinZ input st0).lineNr _ hall]
      simp

/-- Witness for `c4_warning_callback_gate`: on the one-byte file x (which
has no metadata at all) a callback refusing every warning makes
`processFile` fail and leave the file alone, while the always-continue
callback gets all seven warnings and the rewrite proceeds. -/
theorem c4_warning_callback_gate_witness :
    ((processFile false "x".toList (fun _ _ => 0)).res = 0 ∧
      (processFile false "x".toList (fun _ _ => 0)).fileAfter = "x".toList) ∧
    ((processFile false "x".toList (fun _ _ => 1)).res = 1 ∧
      (processFile false "x".toList (fun _ _ => 1)).warned =
        warnMsgsOf (correctMinZ "x".toList (runMachine false "x".toList).1)) :=
  ⟨(c4_warning_callback_gate false "x".toList (fun _ _ => 0)
      (by decide) (by decide)).1 (by decide),
   (c4_warning_callback_gate false "x".toList (fun _ _ => 1)
      (by decide) (by decide)).2 (by decide)⟩

/-- C9 counterexample: the predicted total-line-count field is not a fixed
constant plus the thumbnail and secondary-nozzle increments (minus the
removed span): the one-comment file ;a and the two-comment file ;a ;b
agree on the thumbnail flag, on the secondary-nozzle emission and on the
removal setting (off), yet their fields differ (26 versus 27), because the
field also contains the parsed input file line count. -/
theorem c9_total_lines_counterexample :
    hasThumbnailOf (correctMinZ ";a\n".toList (runMachine false ";a\n".toList).1) =
      hasThumbnailOf (correctMinZ ";a\n;b\n".toList (runMachine false ";a\n;b\n".toList).1) ∧
    emitNozzle1 ";a\n".toList (correctMinZ ";a\n".toList (runMachine false ";a\n".toList).1) =
      emitNozzle1 ";a\n;b\n".toList
        (correctMinZ ";a\n;b\n".toList (runMachine false ";a\n;b\n".toList).1) ∧
    fileTotalLines false ";a\n".toList
      (correctMinZ ";a\n".toList (runMachine false ";a\n".toList).1) = 26 ∧
    fileTotalLines false ";a\n;b\n".toList
      (correctMinZ ";a\n;b\n".toList (runMachine false ";a\n;b\n".toList).1) = 27 := by
  refine ⟨by decide, by decide, by decide, by decide⟩

/-- The minZ correction touches only the z axis of the bounding box. -/
theorem correctMinZ_facts (input : List Char) (st : St) :
    (correctMinZ input st).lineNr = st.lineNr ∧
    (correctMinZ input st).origThumbnailLines = st.origThumbnailLines ∧
    (correctMinZ input st).nozzleTemp1 = st.nozzleTemp1 ∧
    (correctMinZ input st).thumbnail = st.thumbnail ∧
    (correctMinZ input st).everExt = st.everExt ∧
    (correctMinZ input st).bbX = st.bbX ∧
    (correctMinZ input st).bbY = st.bbY ∧
    (correctMinZ input st).firstLayerHeight = st.firstLayerHeight := by
  unfold correctMinZ
  repeat' (first | split | dsimp only)
  all_goals exact ⟨rfl, rfl, rfl, rfl, rfl, rfl, rfl, rfl⟩

/-- C9 (amended): for every input whose parse completes without the
early already-post-processed exit, the total-line-count field equals the
number of input lines as counted by the parser (one plus the number of
newline bytes), plus one when the secondary nozzle-temperature line is
emitted, minus the original-thumbnail line span when legacy-thumbnail
removal is compiled in, plus the constant 24, plus one when a thumbnail
payload is emitted. -/
theorem c9_total_lines_amended (rot : Bool) (input : List Char)
    (hnoexit : (runMachine rot input).2 = false) :
    fileTotalLines rot input (correctMinZ input (runMachine rot input).1) =
      (let st := correctMinZ input (runMachine rot input).1
       let ln := (1 + input.count '\n') + (if emitNozzle1 input st then 1 else 0)
       (if rot then ln - st.origThumbnailLines else ln) + 24 +
         (if hasThumbnailOf st then 1 else 0)) := by
  have hln : (runMachine rot input).1.lineNr = 1 + input.count '\n' := by
    have := runFrom_lineNr rot input input.enum initSt hnoexit
    rw [List.enum_map_snd] at this
    rw [runMachine]
    rw [this]
    rfl
  have hc := correctMinZ_facts input (runMachine rot input).1
  unfold fileTotalLines
  rw [hc.1, hln]

/-- Witness for `c9_total_lines_amended` on the concrete file ;a with one
newline: 1 + 1 input lines, no extras, so the field is 26. -/
theorem c9_total_lines_amended_witness :
    (runMachine false ";a\n".toList).2 = false ∧
      fileTotalLines false ";a\n".toList
          (correctMinZ ";a\n".toList (runMachine false ";a\n".toList).1) =
        (let st := correctMinZ ";a\n".toList (runMachine false ";a\n".toList).1
         let ln := (1 + ";a\n".toList.count '\n') + (if emitNozzle1 ";a\n".toList st then 1 else 0)
         (if false then ln - st.origThumbnailLines else ln) + 24 +
           (if hasThumbnailOf st then 1 else 0)) :=
  ⟨by decide, c9_total_lines_amended false ";a\n".toList (by decide)⟩

/-- An axis is ordered exactly when it is still the sentinel pair or
satisfies min at most max. -/
theorem axLe_iff (o : Option (MQ × MQ)) : axLe o ↔ o = none ∨ axMinLeMax o := by
  cases o with
  | none => simp [axLe, axMinLeMax]
  | some p => obtain ⟨mn, mx⟩ := p; simp [axLe, axMinLeMax]

/-- A sentinel z axis stays sentinel through the minZ correction. -/
theorem correctMinZ_bbZ_none (input : List Char) (st : St) (h : st.bbZ = none) :
    (correctMinZ input st).bbZ = none := by
  unfold correctMinZ
  rw [h]
  split_ifs with h1
  · exact h
  · exact h

/-- With a nonnegative captured first-layer height, the minZ correction
keeps the z axis ordered: it only subtracts the height from the minimum,
and only when min is strictly below max. -/
theorem correctMinZ_bbZ_le (input : List Char) (st : St)
    (hflh : MQ.Le MQ.zero (p_float (tokenChars input st.firstLayerHeight)))
    (h : axLe st.bbZ) : axLe (correctMinZ input st).bbZ := by
  rcases hbz : st.bbZ with _ | ⟨mn, mx⟩
  · rw [correctMinZ_bbZ_none input st hbz]
    exact trivial
  · unfold correctMinZ
    rw [hbz]
    rw [hbz] at h
    split_ifs with h1
    · dsimp only
      split_ifs with h2
      · simp only [axLe] at h ⊢
        simp only [MQ.Le, MQ.zero, MQ.sub] at h hflh ⊢
        have hfnum : 0 ≤ (p_float (tokenChars input st.firstLayerHeight)).num := by
          simpa using hflh
        set f := p_float (tokenChars input st.firstLayerHeight) with hf
        have hden : (0 : Int) ≤ (f.den : Int) := Int.natCast_nonneg f.den
        have hmd : (0 : Int) ≤ (mn.den : Int) := Int.natCast_nonneg mn.den
        have hxd : (0 : Int) ≤ (mx.den : Int) := Int.natCast_nonneg mx.den
        push_cast
        nlinarith [mul_le_mul_of_nonneg_right h hden,
          mul_nonneg (mul_nonneg hfnum hmd) hxd]
      · rw [hbz]
        exact h
    · rw [hbz]
      exact h

/-- C1 counterexample: the file G1 E5 contains an extruding linear move
(it is dispatched with a positive E value, so the ghost flag is set), yet
the x axis of the final bounding box is still the sentinel pair, where
min = +INF exceeds max = -INF; the claimed per-axis min at most max fails
because the move carries no axis words and the current position is still
NaN, so nothing is ever folded into the box. -/
theorem c1_bbox_counterexample :
    (correctMinZ "G1 E5\n".toList (runMachine false "G1 E5\n".toList).1).everExt = true ∧
      ¬ axMinLeMax (correctMinZ "G1 E5\n".toList (runMachine false "G1 E5\n".toList).1).bbX :=
  ⟨by decide, by decide⟩

/-- C1 (amended): for every input (with either compile-time
thumbnail-removal setting), if no extruding linear move is dispatched
during the parse then all six final bounding-box values remain at the
sentinel infinities; and, provided the captured first-layer-height value
(zero when absent) is nonnegative, every axis of the final bounding box is
either still at its sentinels or satisfies min at most max. -/
theorem c1_bbox_amended (rot : Bool) (input : List Char)
    (hflh : MQ.Le MQ.zero
      (p_float (tokenChars input (runMachine rot input).1.firstLayerHeight))) :
    ((correctMinZ input (runMachine rot input).1).everExt = false →
      (correctMinZ input (runMachine rot input).1).bbX = none ∧
      (correctMinZ input (runMachine rot input).1).bbY = none ∧
      (correctMinZ input (runMachine rot input).1).bbZ = none) ∧
    ((correctMinZ input (runMachine rot input).1).bbX = none ∨
      axMinLeMax (correctMinZ input (runMachine rot input).1).bbX) ∧
    ((correctMinZ input (runMachine rot input).1).bbY = none ∨
      axMinLeMax (correctMinZ input (runMachine rot input).1).bbY) ∧
    ((correctMinZ input (runMachine rot input).1).bbZ = none ∨
      axMinLeMax (correctMinZ input (runMachine rot input).1).bbZ) := by
  have hbb0 : bbInv initSt := ⟨fun _ => ⟨rfl, rfl, rfl⟩, trivial, trivial, trivial⟩
  have hbbrun : bbInv (runMachine rot input).1 := by
    rw [runMachine]
    exact (runFrom_Frame rot input input.enum initSt).2 hbb0
  obtain ⟨himp, hx, hy, hz⟩ := hbbrun
  have hc := correctMinZ_facts input (runMachine rot input).1
  refine ⟨?_, ?_, ?_, ?_⟩
  · intro hef
    rw [hc.2.2.2.2.1] at hef
    obtain ⟨h1, h2, h3⟩ := himp hef
    exact ⟨by rw [hc.2.2.2.2.2.1]; exact h1, by rw [hc.2.2.2.2.2.2.1]; exact h2,
      correctMinZ_bbZ_none input _ h3⟩
  · rw [← axLe_iff, hc.2.2.2.2.2.1]
    exact hx
  · rw [← axLe_iff, hc.2.2.2.2.2.2.1]
    exact hy
  · rw [← axLe_iff]
    exact correctMinZ_bbZ_le input _ hflh hz

/-- Witness for `c1_bbox_amended` on the concrete extruding move
G1 X1 Y2 Z3 E1 (no first-layer-height metadata, so the captured height is
zero and nonnegative). -/
theorem c1_bbox_amended_witness :
    MQ.Le MQ.zero
      (p_float (tokenChars "G1 X1 Y2 Z3 E1\n".toList
        (runMachine false "G1 X1 Y2 Z3 E1\n".toList).1.firstLayerHeight)) ∧
    (((correctMinZ "G1 X1 Y2 Z3 E1\n".toList
        (runMachine false "G1 X1 Y2 Z3 E1\n".toList).1).everExt = false →
      (correctMinZ "G1 X1 Y2 Z3 E1\n".toList
        (runMachine false "G1 X1 Y2 Z3 E1\n".toList).1).bbX = none ∧
      (correctMinZ "G1 X1 Y2 Z3 E1\n".toList
        (runMachine false "G1 X1 Y2 Z3 E1\n".toList).1).bbY = none ∧
      (correctMinZ "G1 X1 Y2 Z3 E1\n".toList
        (runMachine false "G1 X1 Y2 Z3 E1\n".toList).1).bbZ = none) ∧
    ((correctMinZ "G1 X1 Y2 Z3 E1\n".toList
        (runMachine false "G1 X1 Y2 Z3 E1\n".toList).1).bbX = none ∨
      axMinLeMax (correctMinZ "G1 X1 Y2 Z3 E1\n".toList
        (runMachine false "G1 X1 Y2 Z3 E1\n".toList).1).bbX) ∧
    ((correctMinZ "G1 X1 Y2 Z3 E1\n".toList
        (runMachine false "G1 X1 Y2 Z3 E1\n".toList).1).bbY = none ∨
      axMinLeMax (correctMinZ "G1 X1 Y2 Z3 E1\n".toList
        (runMachine false "G1 X1 Y2 Z3 E1\n".toList).1).bbY) ∧
    ((correctMinZ "G1 X1 Y2 Z3 E1\n".toList
        (runMachine false "G1 X1 Y2 Z3 E1\n".toList).1).bbZ = none ∨
      axMinLeMax (correctMinZ "G1 X1 Y2 Z3 E1\n".toList
        (runMachine false "G1 X1 Y2 Z3 E1\n".toList).1).bbZ)) :=
  ⟨by decide, c1_bbox_amended false "G1 X1 Y2 Z3 E1\n".toList (by decide)⟩

/-- Splitting a run: after an early exit the rest of the characters are
ignored, otherwise the run continues from the intermediate state. -/
theorem runFrom_append (rot : Bool) (input : List Char) :
    ∀ (a b : List (Nat × Char)) (st : St),
      runFrom rot input st (a ++ b) =
        (if (runFrom rot input st a).2 then runFrom rot input st a
         else runFrom rot input (runFrom rot input st a).1 b) := by
  intro a
  induction a with
  | nil => intro b st; simp [runFrom]
  | cons p rest ih =>
    intro b st
    obtain ⟨i, ch⟩ := p
    cases hstep : step rot input st i ch with
    | mk st1 ex =>
      cases ex
      · simp only [List.cons_append, runFrom, hstep]
        exact ih b st1
      · simp only [List.cons_append, runFrom, hstep]
        simp

/-- C8: for every metadata key, only the first occurrence is captured.
The concrete two-line file with duplicate layer_height keys keeps the
first value 11; and over any run of the parser, once a slot's start
pointer is set it keeps the same value at every later prefix of the run,
so a captured token is never overwritten (the key-matching code discards
a match for an already filled slot). -/
theorem c8_first_match_wins :
    tokenChars ";layer_height = 11\n;layer_height = 22\n".toList
        (runMachine false ";layer_height = 11\n;layer_height = 22\n".toList).1.layerHeight =
      "11".toList ∧
    (∀ (rot : Bool) (input : List Char) (k1 k2 : Nat) (sl : SlotId) (s : Nat),
      k1 ≤ k2 →
      slotStart (runFrom rot input initSt (input.enum.take k1)).1 sl = some s →
      slotStart (runFrom rot input initSt (input.enum.take k2)).1 sl = some s) := by
  constructor
  · decide
  · intro rot input k1 k2 sl s hk hs
    rw [show k2 = k1 + (k2 - k1) from (Nat.add_sub_cancel' hk).symm, List.take_add,
      runFrom_append]
    split_ifs with hex
    · exact hs
    · exact (runFrom_Frame rot input _ _).1 sl s hs

/-- Witness for `c8_first_match_wins`: after the first 19 characters of
the duplicate-key file the layer-height slot points at offset 16, and it
still does after all 39 characters. -/
theorem c8_first_match_wins_witness :
    (19 ≤ 39 ∧
      slotStart (runFrom false ";layer_height = 11\n;layer_height = 22\n".toList initSt
        (";layer_height = 11\n;layer_height = 22\n".toList.enum.take 19)).1
        SlotId.layerHeight = some 16) ∧
    slotStart (runFrom false ";layer_height = 11\n;layer_height = 22\n".toList initSt
        (";layer_height = 11\n;layer_height = 22\n".toList.enum.take 39)).1
        SlotId.layerHeight = some 16 :=
  ⟨⟨by decide, by decide⟩,
   c8_first_match_wins.2 false ";layer_height = 11\n;layer_height = 22\n".toList 19 39
     SlotId.layerHeight 16 (by decide) (by decide)⟩

/-- A list beginning with a fixed prefix cannot begin with a list that
disagrees with that prefix at some position. -/
theorem not_leadsWith_of_mismatch (p pre : List Char) (i : Nat) (hi : i < pre.length)
    (hip : i < p.length) (hne : pre.get? i ≠ p.get? i) (s : List Char) :
    ¬ leadsWith p (pre ++ s) := by
  intro hlp
  unfold leadsWith at hlp
  have hcg := congrArg (fun l => List.get? l i) hlp
  dsimp only at hcg
  rw [List.get?_take hip, List.get?_append hi] at hcg
  exact hne hcg

/-- Every list begins with itself, whatever follows. -/
theorem leadsWith_append (p s : List Char) : leadsWith p (p ++ s) := by
  unfold leadsWith
  exact List.take_left p s

/-- C7: the first-layer-temperature value 210,200 captures a primary
token parsing to 210 (the captured primary token includes the comma, which
the float parser stops at) and a secondary token parsing to 200; and, for
any parse state, the synthesized header contains a line beginning with
;nozzle_1_temperature(°C): exactly when the secondary nozzle-temperature
value exceeds 0.1. -/
theorem c7_dual_nozzle :
    (p_float (tokenChars ";first_layer_temperature = 210,200\n".toList
      (runMachine false ";first_layer_temperature = 210,200\n".toList).1.nozzleTemp0)).toRat
        = 210 ∧
    (p_float (tokenChars ";first_layer_temperature = 210,200\n".toList
      (runMachine false ";first_layer_temperature = 210,200\n".toList).1.nozzleTemp1)).toRat
        = 200 ∧
    (∀ (rot : Bool) (input : List Char) (st : St),
      (∃ l ∈ headerLines rot input st, leadsWith ";nozzle_1_temperature(°C): ".toList l) ↔
        MQ.Lt ⟨1, 10⟩ (nozzleTemp1Val input st)) := by
  refine ⟨?_, ?_, ?_⟩
  · rw [show p_float (tokenChars ";first_layer_temperature = 210,200\n".toList
          (runMachine false ";first_layer_temperature = 210,200\n".toList).1.nozzleTemp0) =
        ⟨210, 1⟩ from by decide]
    norm_num [MQ.toRat]
  · rw [show p_float (tokenChars ";first_layer_temperature = 210,200\n".toList
          (runMachine false ";first_layer_temperature = 210,200\n".toList).1.nozzleTemp1) =
        ⟨200, 1⟩ from by decide]
    norm_num [MQ.toRat]
  · intro rot input st
    constructor
    · rintro ⟨l, hl, hp⟩
      by_cases hn : MQ.Lt ⟨1, 10⟩ (nozzleTemp1Val input st)
      · exact hn
      · exfalso
        have hn2 : emitNozzle1 input st = false := by
          unfold emitNozzle1
          exact decide_eq_false hn
        by_cases ht : hasThumbnailOf st = true
        · simp only [headerLines, hn2, ht, if_true, if_false, Bool.false_eq_true,
            List.mem_append, List.mem_cons, List.mem_singleton, List.not_mem_nil,
            or_false, false_or, or_assoc] at hl
          rcases hl with
            rfl|rfl|rfl|rfl|rfl|rfl|rfl|rfl|rfl|rfl|rfl|rfl|rfl|rfl|rfl|rfl|rfl|rfl|rfl|rfl|rfl|rfl|rfl|rfl|rfl <;>
            first
              | exact absurd hp (by decide)
              | exact not_leadsWith_of_mismatch _ _ 1 (by decide) (by decide) (by decide) _ hp
              | exact not_leadsWith_of_mismatch _ _ 8 (by decide) (by decide) (by decide) _ hp
              | (rw [List.append_assoc] at hp
                 exact not_leadsWith_of_mismatch _ _ 1 (by decide) (by decide) (by decide) _ hp)
        · simp only [headerLines, hn2, ht, if_true, if_false, Bool.false_eq_true,
            List.mem_append, List.mem_cons, List.mem_singleton, List.not_mem_nil,
            or_false, false_or, or_assoc] at hl
          rcases hl with
            rfl|rfl|rfl|rfl|rfl|rfl|rfl|rfl|rfl|rfl|rfl|rfl|rfl|rfl|rfl|rfl|rfl|rfl|rfl|rfl|rfl|rfl|rfl|rfl <;>
            first
              | exact absurd hp (by decide)
              | exact not_leadsWith_of_mismatch _ _ 1 (by decide) (by decide) (by decide) _ hp
              | exact not_leadsWith_of_mismatch _ _ 8 (by decide) (by decide) (by decide) _ hp
              | (rw [List.append_assoc] at hp
                 exact not_leadsWith_of_mismatch _ _ 1 (by decide) (by decide) (by decide) _ hp)
    · intro hn
      have hn2 : emitNozzle1 input st = true := by
        unfold emitNozzle1
        exact decide_eq_true hn
      refine ⟨";nozzle_1_temperature(°C): ".toList ++
        fmtFixed (nozzleTemp1Val input st) 0, ?_, leadsWith_append _ _⟩
      simp [headerLines, hn2]
